import Mathlib

/-!
Verification of the tsfiltor filter engine (src/conditions.ts, src/evaluator.ts,
src/builders.ts, src/types.ts) against its specification.

JavaScript runtime values are modelled by the inductive type `Value`:
numbers are modelled as integers (the claims under study do not depend on
IEEE-754 fractional behaviour), `null` and `undefined` are distinct
constructors, objects are association lists of own enumerable string
properties in insertion order, and a compiled RegExp carries its source
text together with its compiled pattern.  JS reference equality (`===`) on
compound values is modelled structurally; no settled claim depends on the
identity of compound values.  A thrown exception is modelled by `none` in
an `Option` result.
-/

/-- Items of a regex character class: single characters, ranges, and the
digit / word / whitespace shorthand classes. -/
inductive ClassItem where
  | single (c : Char)
  | range (lo hi : Char)
  | digit
  | word
  | space
deriving DecidableEq, Repr

/-- Compiled regular expression, modelling the subset of the host RegExp
engine exercised by the repository: literals, escapes, `.`, character
classes, grouping, alternation, the star quantifier (with `+` and `?`
desugared at parse time), and the `^` / `$` anchors.  Bounded repetition,
backreferences, lookaround and flags are outside the model. -/
inductive Regex where
  | epsilon
  | rchar (c : Char)
  | anyChar
  | cls (neg : Bool) (items : List ClassItem)
  | seq (a b : Regex)
  | alt (a b : Regex)
  | star (a : Regex)
  | startAnchor
  | endAnchor
deriving DecidableEq, Repr

/-- JavaScript runtime values (plain data).  Host function objects (and in
particular Zod schema capabilities) are outside the model. -/
inductive Value where
  | vNull
  | vUndefined
  | vBool (b : Bool)
  | vNum (n : Int)
  | vStr (s : String)
  | vArr (elems : List Value)
  | vObj (props : List (String × Value))
  | vDate (time : Int)
  | vRegex (source : String) (re : Regex)

namespace Value

mutual

/-- Structural equality of modelled values (used to model `===`; see
`strictEq`). -/
def beqValue : Value → Value → Bool
  | vNull, vNull => true
  | vUndefined, vUndefined => true
  | vBool a, vBool b => a == b
  | vNum a, vNum b => a == b
  | vStr a, vStr b => a == b
  | vArr xs, vArr ys => beqValueList xs ys
  | vObj ps, vObj qs => beqValueProps ps qs
  | vDate a, vDate b => a == b
  | vRegex s1 r1, vRegex s2 r2 => s1 == s2 && r1 == r2
  | _, _ => false
termination_by a b => sizeOf a

/-- Structural equality on lists of values. -/
def beqValueList : List Value → List Value → Bool
  | [], [] => true
  | x :: xs, y :: ys => beqValue x y && beqValueList xs ys
  | _, _ => false
termination_by a b => sizeOf a

/-- Structural equality on property lists. -/
def beqValueProps : List (String × Value) → List (String × Value) → Bool
  | [], [] => true
  | (k1, v1) :: xs, (k2, v2) :: ys => k1 == k2 && beqValue v1 v2 && beqValueProps xs ys
  | _, _ => false
termination_by a b => sizeOf a

end

instance : BEq Value := ⟨beqValue⟩

theorem beq_eq_beqValue (a b : Value) : (a == b) = beqValue a b := rfl

/-- Own-property lookup on the association list of an object (first match;
well-formed JS objects have no duplicate keys). -/
def getProp : List (String × Value) → String → Option Value
  | [], _ => none
  | (k, v) :: rest, key => if k == key then some v else getProp rest key

/-- The JS `in` operator restricted to own properties of a plain object. -/
def hasProp (kvs : List (String × Value)) (key : String) : Bool :=
  (getProp kvs key).isSome

theorem sizeOf_lt_of_getProp : ∀ {kvs : List (String × Value)} {key : String} {v : Value},
    getProp kvs key = some v → sizeOf v < sizeOf kvs := by
  intro kvs
  induction kvs with
  | nil => intro key v h; simp [getProp] at h
  | cons p rest ih =>
    intro key v h
    obtain ⟨k, w⟩ := p
    by_cases hk : (k == key) = true
    · simp only [getProp, hk, if_true, Option.some.injEq] at h
      subst h
      simp only [List.cons.sizeOf_spec, Prod.mk.sizeOf_spec]
      omega
    · simp only [getProp, hk, if_false, Bool.false_eq_true] at h
      have := ih h
      simp only [List.cons.sizeOf_spec]
      omega

/-- JS truthiness (`!!x`): `null`, `undefined`, `false`, `0` and the empty
string are falsy; every other modelled value is truthy. -/
def jsTruthy : Value → Bool
  | vNull => false
  | vUndefined => false
  | vBool b => b
  | vNum n => n != 0
  | vStr s => !s.isEmpty
  | _ => true

mutual

/-- JS `String(x)` string coercion on modelled values.  Dates render in a
host-locale format in JS; the model renders them opaquely. -/
def jsToString : Value → String
  | vNull => "null"
  | vUndefined => "undefined"
  | vBool b => if b then "true" else "false"
  | vNum n => toString n
  | vStr s => s
  | vArr xs => jsArrJoin xs
  | vObj _ => "[object Object]"
  | vDate t => "Date(" ++ toString t ++ ")"
  | vRegex src _ => "/" ++ src ++ "/"
termination_by v => (sizeOf v, 0)

/-- Array-to-string coercion: elements joined with commas. -/
def jsArrJoin : List Value → String
  | [] => ""
  | [v] => jsElemStr v
  | v :: rest => jsElemStr v ++ "," ++ jsArrJoin rest
termination_by xs => (sizeOf xs, 2)

/-- Element rendering inside `Array.prototype.join`: `null` and
`undefined` render as the empty string. -/
def jsElemStr : Value → String
  | vNull => ""
  | vUndefined => ""
  | v => jsToString v
termination_by v => (sizeOf v, 1)

end

/-- JS `ToNumber` on a string, restricted to the integer fragment of the
model: surrounding whitespace is trimmed, the empty string converts to `0`,
and optionally signed decimal integer literals convert to their value;
anything else is NaN (`none`).  (Fractional, exponent and hex literals are
outside the integer model.) -/
def parseNumStr (s : String) : Option Int :=
  let t := s.trim
  if t.isEmpty then some 0
  else if t.startsWith "+" then ((t.drop 1).toNat?).map Int.ofNat
  else t.toInt?

/-- JS `ToPrimitive` with hint number: arrays and plain objects convert via
their string coercion, dates yield their time value, compiled regexes
yield their source form. -/
def toPrimHintNum : Value → Value
  | vArr xs => vStr (jsToString (vArr xs))
  | vObj _ => vStr "[object Object]"
  | vDate t => vNum t
  | vRegex src re => vStr ("/" ++ src ++ "/")
  | v => v

/-- JS `ToNumber` on a primitive value (`none` is NaN). -/
def primToNum : Value → Option Int
  | vNull => some 0
  | vUndefined => none
  | vBool b => some (if b then 1 else 0)
  | vNum n => some n
  | vStr s => parseNumStr s
  | _ => none

/-- The JS abstract relational comparison `a < b`: if both operands are
strings after `ToPrimitive` they compare lexicographically, otherwise both
convert to numbers and any NaN makes the comparison false. -/
def jsLt (a b : Value) : Bool :=
  match toPrimHintNum a, toPrimHintNum b with
  | vStr s, vStr t => decide (s < t)
  | pa, pb =>
    match primToNum pa, primToNum pb with
    | some x, some y => decide (x < y)
    | _, _ => false

/-- The JS comparison `a <= b` (false whenever a NaN is involved). -/
def jsLe (a b : Value) : Bool :=
  match toPrimHintNum a, toPrimHintNum b with
  | vStr s, vStr t => decide (s ≤ t)
  | pa, pb =>
    match primToNum pa, primToNum pb with
    | some x, some y => decide (x ≤ y)
    | _, _ => false

/-- JS strict equality `===` on modelled values.  On primitives this is
exact; on compound values (objects, arrays, dates, regexes) JS compares
references, which the plain-data model renders as structural equality. -/
def strictEq (a b : Value) : Bool := a == b

end Value

namespace RegexModel

/-- Character-class membership test. -/
def classMatch (c : Char) : ClassItem → Bool
  | ClassItem.single a => c == a
  | ClassItem.range lo hi => decide (lo ≤ c) && decide (c ≤ hi)
  | ClassItem.digit => c.isDigit
  | ClassItem.word => c.isAlphanum || c == '_'
  | ClassItem.space => c == ' ' || c == '\t' || c == '\n' || c == '\r'

/-- Escape sequences in atom position: shorthand classes, control
escapes, and identity escapes for punctuation.  Word-boundary assertions
are outside the modelled subset. -/
def escapeAtom (c : Char) : Option Regex :=
  if c == 'd' then some (Regex.cls false [ClassItem.digit])
  else if c == 'D' then some (Regex.cls true [ClassItem.digit])
  else if c == 'w' then some (Regex.cls false [ClassItem.word])
  else if c == 'W' then some (Regex.cls true [ClassItem.word])
  else if c == 's' then some (Regex.cls false [ClassItem.space])
  else if c == 'S' then some (Regex.cls true [ClassItem.space])
  else if c == 'n' then some (Regex.rchar '\n')
  else if c == 't' then some (Regex.rchar '\t')
  else if c == 'r' then some (Regex.rchar '\r')
  else if c == 'b' || c == 'B' then none
  else some (Regex.rchar c)

/-- Parse the items of a character class up to the closing bracket; an
unterminated class or an inverted range is a syntax error (as in JS). -/
def parseClassItems (fuel : Nat) (cs : List Char) (acc : List ClassItem) :
    Option (List ClassItem × List Char) :=
  match fuel, cs with
  | 0, _ => none
  | _, [] => none
  | fuel + 1, ']' :: rest => some (acc.reverse, rest)
  | fuel + 1, '\\' :: c :: rest =>
    let item :=
      if c == 'd' then ClassItem.digit
      else if c == 'w' then ClassItem.word
      else if c == 's' then ClassItem.space
      else ClassItem.single c
    parseClassItems fuel rest (item :: acc)
  | _ + 1, ['\\'] => none
  | fuel + 1, a :: '-' :: b :: rest =>
    if b == ']' then
      parseClassItems fuel (']' :: rest) (ClassItem.single '-' :: ClassItem.single a :: acc)
    else if a ≤ b then parseClassItems fuel rest (ClassItem.range a b :: acc)
    else none
  | fuel + 1, c :: rest => parseClassItems fuel rest (ClassItem.single c :: acc)

/-- Read one quantifier (`*`, `+`, `?`) after an atom, desugaring `+` and
`?`; a trailing `?` lazy modifier is accepted (laziness does not change
match existence, which is all `test` observes). -/
def parseQuant (r : Regex) (cs : List Char) : Regex × List Char :=
  match cs with
  | '*' :: '?' :: rest => (Regex.star r, rest)
  | '*' :: rest => (Regex.star r, rest)
  | '+' :: '?' :: rest => (Regex.seq r (Regex.star r), rest)
  | '+' :: rest => (Regex.seq r (Regex.star r), rest)
  | '?' :: '?' :: rest => (Regex.alt r Regex.epsilon, rest)
  | '?' :: rest => (Regex.alt r Regex.epsilon, rest)
  | _ => (r, cs)

mutual

/-- Parse an alternation (`a|b|c`); an empty branch is valid and matches
the empty string. -/
def parseAlt (fuel : Nat) (cs : List Char) : Option (Regex × List Char) :=
  match fuel with
  | 0 => none
  | fuel + 1 =>
    match parseSeq fuel cs with
    | none => none
    | some (r, rest) =>
      match rest with
      | '|' :: rest2 =>
        match parseAlt fuel rest2 with
        | none => none
        | some (r2, rest3) => some (Regex.alt r r2, rest3)
      | _ => some (r, rest)

/-- Parse a (possibly empty) sequence of quantified atoms, stopping at
`|`, `)` or the end of the pattern. -/
def parseSeq (fuel : Nat) (cs : List Char) : Option (Regex × List Char) :=
  match fuel with
  | 0 => none
  | fuel + 1 =>
    match cs with
    | [] => some (Regex.epsilon, [])
    | ')' :: _ => some (Regex.epsilon, cs)
    | '|' :: _ => some (Regex.epsilon, cs)
    | _ =>
      match parseAtom fuel cs with
      | none => none
      | some (r, rest) =>
        let (r', rest') := parseQuant r rest
        match parseSeq fuel rest' with
        | none => none
        | some (r2, rest2) => some (Regex.seq r' r2, rest2)

/-- Parse a single atom.  A bare quantifier, an unbalanced group or class,
a trailing backslash or an unsupported group modifier is a syntax error. -/
def parseAtom (fuel : Nat) (cs : List Char) : Option (Regex × List Char) :=
  match fuel with
  | 0 => none
  | fuel + 1 =>
    match cs with
    | [] => none
    | '(' :: '?' :: ':' :: rest => parseGroup fuel rest
    | '(' :: '?' :: _ => none
    | '(' :: rest => parseGroup fuel rest
    | ')' :: _ => none
    | '*' :: _ => none
    | '+' :: _ => none
    | '?' :: _ => none
    | '|' :: _ => none
    | '[' :: '^' :: rest =>
      (parseClassItems (fuel + 1) rest []).map (fun p => (Regex.cls true p.1, p.2))
    | '[' :: rest =>
      (parseClassItems (fuel + 1) rest []).map (fun p => (Regex.cls false p.1, p.2))
    | ['\\'] => none
    | '\\' :: c :: rest => (escapeAtom c).map (fun r => (r, rest))
    | '.' :: rest => some (Regex.anyChar, rest)
    | '^' :: rest => some (Regex.startAnchor, rest)
    | '$' :: rest => some (Regex.endAnchor, rest)
    | c :: rest => some (Regex.rchar c, rest)

/-- Parse a group body and its closing parenthesis. -/
def parseGroup (fuel : Nat) (cs : List Char) : Option (Regex × List Char) :=
  match fuel with
  | 0 => none
  | fuel + 1 =>
    match parseAlt fuel cs with
    | none => none
    | some (r, ')' :: rest) => some (r, rest)
    | some _ => none

end

/-- JS `new RegExp(source)` pattern compilation over the modelled subset:
the whole source must parse.  The fuel bound exceeds any possible
recursion depth for the given source length. -/
def parseRegex (s : String) : Option Regex :=
  match parseAlt (8 * s.length + 16) s.data with
  | some (r, []) => some r
  | _ => none

/-- Backtracking matcher: all ways to match `re` against a prefix of
`cs`, returning for each match whether the resulting position is still the
start of the subject (for `^`) together with the remaining characters.
The filters on recursive calls restrict to remainders no longer than the
input, which matching guarantees anyway; they make termination evident. -/
def rmatch (re : Regex) (atStart : Bool) (cs : List Char) : List (Bool × List Char) :=
  match re with
  | Regex.epsilon => [(atStart, cs)]
  | Regex.rchar c =>
    match cs with
    | d :: rest => if c == d then [(false, rest)] else []
    | [] => []
  | Regex.anyChar =>
    match cs with
    | d :: rest => if d == '\n' then [] else [(false, rest)]
    | [] => []
  | Regex.cls neg items =>
    match cs with
    | d :: rest => if (items.any (classMatch d)) != neg then [(false, rest)] else []
    | [] => []
  | Regex.startAnchor => if atStart then [(atStart, cs)] else []
  | Regex.endAnchor => if cs.isEmpty then [(atStart, cs)] else []
  | Regex.alt a b => rmatch a atStart cs ++ rmatch b atStart cs
  | Regex.seq a b =>
    (((rmatch a atStart cs).filter (fun p => p.2.length ≤ cs.length)).attach.map
      (fun p => rmatch b p.1.1 p.1.2)).flatten
  | Regex.star a =>
    (atStart, cs) ::
      (((rmatch a atStart cs).filter (fun p => p.2.length < cs.length)).attach.map
        (fun p => rmatch (Regex.star a) p.1.1 p.1.2)).flatten
termination_by 2 * cs.length + sizeOf re
decreasing_by
  all_goals simp_wf
  all_goals try omega
  all_goals
    obtain ⟨⟨pf, prest⟩, hmem⟩ := p
    have hlen := (List.mem_filter.mp hmem).2
    simp only [decide_eq_true_eq] at hlen
    simp only [] at *
    omega

/-- JS `RegExp.prototype.test`: the pattern may match starting at any
position of the subject. -/
def regexTest (re : Regex) (s : String) : Bool :=
  s.data.tails.any (fun suffix => !(rmatch re (suffix.length == s.data.length) suffix).isEmpty)

end RegexModel

/-- JS `String.prototype.includes`: substring test (the empty string is
contained in every string). -/
def strContains (s t : String) : Bool :=
  s.data.tails.any (fun suffix => t.data.isPrefixOf suffix)

namespace Conditions

open Value

/-- Direct evaluation function `eq` of src/conditions.ts: `x === value`. -/
def eq (x value : Value) : Bool := strictEq x value

/-- Direct evaluation function `ne`: `x !== value`. -/
def ne (x value : Value) : Bool := !strictEq x value

/-- Direct evaluation function `lt`: `x < value`. -/
def lt (x value : Value) : Bool := jsLt x value

/-- Direct evaluation function `lte`: `x <= value`. -/
def lte (x value : Value) : Bool := jsLe x value

/-- Direct evaluation function `gt`: `x > value`. -/
def gt (x value : Value) : Bool := jsLt value x

/-- Direct evaluation function `gte`: `x >= value`. -/
def gte (x value : Value) : Bool := jsLe value x

/-- Direct evaluation function `anyOf`: false unless `values` is an array,
otherwise `values.includes(x)`. -/
def anyOf (x values : Value) : Bool :=
  match values with
  | vArr vs => vs.any (fun v => strictEq v x)
  | _ => false

/-- Direct evaluation function `contains`: substring test for string `x`
(with the condition value coerced to a string), membership test for array
`x`, false otherwise. -/
def contains (x value : Value) : Bool :=
  match x with
  | vStr s => strContains s (jsToString value)
  | vArr xs => xs.any (fun e => strictEq e value)
  | _ => false

/-- Direct evaluation function `startsWith`: string-only prefix test with
the condition value coerced to a string. -/
def startsWith (x value : Value) : Bool :=
  match x with
  | vStr s => s.startsWith (jsToString value)
  | _ => false

/-- Direct evaluation function `endsWith`: string-only suffix test with
the condition value coerced to a string. -/
def endsWith (x value : Value) : Bool :=
  match x with
  | vStr s => s.endsWith (jsToString value)
  | _ => false

/-- Direct evaluation function `minLength`: `x.length >= value` for
strings and arrays, false otherwise. -/
def minLength (x value : Value) : Bool :=
  match x with
  | vStr s => gte (vNum s.length) value
  | vArr xs => gte (vNum xs.length) value
  | _ => false

/-- Direct evaluation function `maxLength`: `x.length <= value` for
strings and arrays, false otherwise. -/
def maxLength (x value : Value) : Bool :=
  match x with
  | vStr s => lte (vNum s.length) value
  | vArr xs => lte (vNum xs.length) value
  | _ => false

/-- Direct evaluation function `truthy`: `!!x`. -/
def truthy (x : Value) : Bool := jsTruthy x

/-- Direct evaluation function `isNull`: `x === null || x === undefined`. -/
def isNull (x : Value) : Bool :=
  match x with
  | vNull => true
  | vUndefined => true
  | _ => false

/-- Direct evaluation function `isNotNull`: `x !== null && x !== undefined`. -/
def isNotNull (x : Value) : Bool := !isNull x

/-- The private `resolvePattern` helper: a compiled RegExp is used as is,
a string is compiled (`new RegExp(value)`, with a syntax error caught and
turned into `null`), anything else resolves to `null`. -/
def resolvePattern : Value → Option Regex
  | vRegex _ re => some re
  | vStr s => RegexModel.parseRegex s
  | _ => none

/-- Direct evaluation function `matches`: false when the pattern does not
resolve or `x` is not a string, otherwise `resolvedPattern.test(x)`.
(The source name `matches` is a Lean keyword, hence the suffix.) -/
def matchesPattern (x pattern : Value) : Bool :=
  match resolvePattern pattern with
  | none => false
  | some re =>
    match x with
    | vStr s => RegexModel.regexTest re s
    | _ => false

/-- Direct evaluation function `isRecord`: true exactly for plain objects
(prototype `Object.prototype` or `null`); arrays, dates and regexes are
excluded. -/
def isRecord (x : Value) : Bool :=
  match x with
  | vObj _ => true
  | _ => false

/-- Direct evaluation function `matchesZodSchema`:
`schema.safeParse(value).success`.  A schema capability is a host function
object and lies outside the plain-data value model; invoking `safeParse`
on any modelled value raises a TypeError in JS, so within the model the
call always produces the exceptional result. -/
def matchesZodSchema (x schema : Value) : Option Bool := none

end Conditions

/-- The operator registry `operatorEvaluators` of src/evaluator.ts in its
initial state, keyed by the `ConditionOperator` string values.  Each entry
takes the field value and the condition value (the built-ins ignore the
entity and condition arguments that the evaluator also passes); the
`Option` result models a thrown exception.  `registerOperator` mutates
this process-wide table at runtime; the claims under study concern the
registry as initialized. -/
def builtinLookup : String → Option (Value → Value → Option Bool)
  | "eq" => some (fun x v => some (Conditions.eq x v))
  | "ne" => some (fun x v => some (Conditions.ne x v))
  | "lt" => some (fun x v => some (Conditions.lt x v))
  | "lte" => some (fun x v => some (Conditions.lte x v))
  | "gt" => some (fun x v => some (Conditions.gt x v))
  | "gte" => some (fun x v => some (Conditions.gte x v))
  | "anyOf" => some (fun x v => some (Conditions.anyOf x v))
  | "contains" => some (fun x v => some (Conditions.contains x v))
  | "startsWith" => some (fun x v => some (Conditions.startsWith x v))
  | "endsWith" => some (fun x v => some (Conditions.endsWith x v))
  | "minLength" => some (fun x v => some (Conditions.minLength x v))
  | "maxLength" => some (fun x v => some (Conditions.maxLength x v))
  | "truthy" => some (fun x _ => some (Conditions.truthy x))
  | "isNull" => some (fun x _ => some (Conditions.isNull x))
  | "isNotNull" => some (fun x _ => some (Conditions.isNotNull x))
  | "matches" => some (fun x v => some (Conditions.matchesPattern x v))
  | "isRecord" => some (fun x _ => some (Conditions.isRecord x))
  | "matchesZodSchema" => some (fun x v => Conditions.matchesZodSchema x v)
  | _ => none

/-- The private `isPlainRecord` of src/evaluator.ts: a plain object (not
an array, date or regex, and not falsy or primitive) that does not carry
both a `field` and an `operator` key, nor an `and` or `or` key. -/
def isPlainRecord : Value → Bool
  | Value.vObj kvs =>
    !(Value.hasProp kvs "field" && Value.hasProp kvs "operator") &&
      !Value.hasProp kvs "and" && !Value.hasProp kvs "or"
  | _ => false

/-- Canonical array-index form of a property key (`"3"` is an index,
`"03"` is not). -/
def canonIndex (key : String) : Option Nat :=
  match key.toNat? with
  | some i => if toString i == key then some i else none
  | none => none

/-- JS property read `entity[key]`; `none` models the TypeError raised on
property access on `null`/`undefined`.  Objects expose their own
properties; strings and arrays expose `length` and indexed elements;
property reads on other primitives yield `undefined` (inherited methods
are function objects, outside the plain-data model). -/
def getFieldOpt (entity : Value) (key : String) : Option Value :=
  match entity with
  | Value.vNull => none
  | Value.vUndefined => none
  | Value.vObj kvs => some ((Value.getProp kvs key).getD Value.vUndefined)
  | Value.vStr s =>
    some (if key == "length" then Value.vNum s.length
      else
        match canonIndex key with
        | some i =>
          match s.data.drop i with
          | c :: _ => Value.vStr (String.mk [c])
          | [] => Value.vUndefined
        | none => Value.vUndefined)
  | Value.vArr xs =>
    some (if key == "length" then Value.vNum xs.length
      else
        match canonIndex key with
        | some i =>
          match xs.drop i with
          | v :: _ => v
          | [] => Value.vUndefined
        | none => Value.vUndefined)
  | _ => some Value.vUndefined

/-- Evaluation of a plain-mapping filter.  In the source,
`evaluateCondition` rewrites the mapping through `matchesAll` into a
`\x7b and: [...] \x7d` conjunction of per-key `eq` conditions and re-enters
itself; each generated condition deterministically reaches the registry
`eq` evaluator, testing `entity[key] === value`.  The model evaluates that
conjunction directly; `evaluateCondition_eqCond` and
`plainRecord_matchesAll` below justify the one-step inlining. -/
def evalPlainRecord (entity : Value) : List (String × Value) → Option Bool
  | [] => some true
  | (k, v) :: rest =>
    match getFieldOpt entity k with
    | none => none
    | some fv => if Value.strictEq fv v then evalPlainRecord entity rest else some false

theorem sizeOf_list_pos (kvs : List (String × Value)) : 0 < sizeOf kvs := by
  cases kvs <;> simp <;> omega

mutual

/-- The recursive filter evaluator `evaluateCondition` of src/evaluator.ts
over the initial operator registry.  Dispatch order follows the source:
`null`/`undefined` and both boolean literals evaluate to true; arrays are
conjunctions of their elements; plain records (per `isPlainRecord`) are
rewritten to conjunctions of per-key equalities; then the dedicated
`and`/`or` keys (only when their value is an array), the reserved
`and`/`or`/`not` operator identifiers, and finally the registry lookup,
where an absent operator fails closed to `false` and the field value is
read off the entity before the operator function runs.  `none` models a
thrown exception: probing `'and' in condition` on a number or string
raises a TypeError, as does calling `.every`/`.some` on a non-array
`value` of a logical operator condition, reading a field off a
`null`/`undefined` entity, and invoking the schema-match capability. -/
def evaluateCondition (entity : Value) (condition : Value) : Option Bool :=
  match condition with
  | Value.vNull => some true
  | Value.vUndefined => some true
  | Value.vBool _ => some true
  | Value.vNum _ => none
  | Value.vStr _ => none
  | Value.vDate _ => some false
  | Value.vRegex _ _ => some false
  | Value.vArr cs => evalAll entity cs
  | Value.vObj kvs =>
    if isPlainRecord (Value.vObj kvs) then evalPlainRecord entity kvs
    else
      match hA : Value.getProp kvs "and" with
      | some (Value.vArr cs) => evalAll entity cs
      | _ =>
        match hO : Value.getProp kvs "or" with
        | some (Value.vArr cs) => evalAny entity cs
        | _ =>
          match hP : Value.getProp kvs "operator" with
          | some (Value.vStr "and") =>
            match hV : Value.getProp kvs "value" with
            | some (Value.vArr cs) => evalAll entity cs
            | _ => none
          | some (Value.vStr "or") =>
            match hV : Value.getProp kvs "value" with
            | some (Value.vArr cs) => evalAny entity cs
            | _ => none
          | some (Value.vStr "not") =>
            match hV : Value.getProp kvs "value" with
            | some v => (evaluateCondition entity v).map (fun b => !b)
            | none => (evaluateCondition entity Value.vUndefined).map (fun b => !b)
          | op =>
            match builtinLookup (Value.jsToString (op.getD Value.vUndefined)) with
            | none => some false
            | some f =>
              match getFieldOpt entity
                  (Value.jsToString ((Value.getProp kvs "field").getD Value.vUndefined)) with
              | none => none
              | some fv => f fv ((Value.getProp kvs "value").getD Value.vUndefined)
termination_by sizeOf condition
decreasing_by
  all_goals simp_wf
  all_goals try omega
  all_goals try (have hh := Value.sizeOf_lt_of_getProp hA; simp only [Value.vArr.sizeOf_spec] at hh; omega)
  all_goals try (have hh := Value.sizeOf_lt_of_getProp hO; simp only [Value.vArr.sizeOf_spec] at hh; omega)
  all_goals try (have hh := Value.sizeOf_lt_of_getProp hV; simp only [Value.vArr.sizeOf_spec] at hh; omega)
  all_goals try (have hh := Value.sizeOf_lt_of_getProp hV; omega)
  all_goals exact sizeOf_list_pos kvs

/-- `Array.prototype.every` over recursive evaluation: short-circuits on
the first false result; an exception from an element propagates. -/
def evalAll (entity : Value) : List Value → Option Bool
  | [] => some true
  | c :: rest =>
    match evaluateCondition entity c with
    | none => none
    | some false => some false
    | some true => evalAll entity rest
termination_by cs => sizeOf cs
decreasing_by
  all_goals simp_wf
  all_goals omega

/-- `Array.prototype.some` over recursive evaluation: short-circuits on
the first true result; an exception from an element propagates. -/
def evalAny (entity : Value) : List Value → Option Bool
  | [] => some false
  | c :: rest =>
    match evaluateCondition entity c with
    | none => none
    | some true => some true
    | some false => evalAny entity rest
termination_by cs => sizeOf cs
decreasing_by
  all_goals simp_wf
  all_goals omega

end

namespace Builders

/-- Builder `eq` of src/builders.ts: the Single Condition
`\x7b field, operator: 'eq', value \x7d`. -/
def eq (field : String) (value : Value) : Value :=
  Value.vObj [("field", Value.vStr field), ("operator", Value.vStr "eq"), ("value", value)]

/-- Builder `matchesAll` of src/builders.ts: an `and` of per-key equality
conditions, one per entry of the record in property order. -/
def matchesAll (kvs : List (String × Value)) : Value :=
  Value.vObj [("and", Value.vArr (kvs.map (fun kv => eq kv.1 kv.2)))]

/-- Builder `and` of src/builders.ts (variadic in the source): the
dedicated-key conjunction, with falsy (null/undefined) arguments filtered
out. -/
def and (conditions : List Value) : Value :=
  Value.vObj [("and", Value.vArr (conditions.filter Value.jsTruthy))]

/-- Builder `or` of src/builders.ts (variadic in the source): the
dedicated-key disjunction. -/
def or (conditions : List Value) : Value :=
  Value.vObj [("or", Value.vArr conditions)]

end Builders

/--`getEvaluator` of src/evaluator.ts: the evaluation closure over a fixed
filter. -/
def getEvaluator (condition : Value) : Value → Option Bool :=
  fun entity => evaluateCondition entity condition

/-- `filterEntities` of src/evaluator.ts:
`entities.filter(getEvaluator(filter))`.  The predicate runs left to
right; an exception aborts the whole call (`none`). -/
def filterEntities (entities : List Value) (filter : Value) : Option (List Value) :=
  match entities with
  | [] => some []
  | e :: rest =>
    match getEvaluator filter e with
    | none => none
    | some b => (filterEntities rest filter).map (fun r => if b then e :: r else r)

/-- Clamping of a JS `Array.prototype.slice` index: negative indices count
from the end, and indices are clamped to `[0, length]`. -/
def jsClampIdx (len : Nat) (i : Int) : Nat :=
  (max 0 (min (if i < 0 then (len : Int) + i else i) (len : Int))).toNat

/-- JS `Array.prototype.slice(start, end)` with both indices present. -/
def jsSlice (xs : List Value) (s e : Int) : List Value :=
  ((xs.drop (jsClampIdx xs.length s)).take (jsClampIdx xs.length e - jsClampIdx xs.length s))

/-- JS `Array.prototype.slice(start, end)` where `end` may be
`undefined` (slice to the end of the array). -/
def jsSliceOpt (xs : List Value) (s : Int) : Option Int → List Value
  | some e => jsSlice xs s e
  | none => xs.drop (jsClampIdx xs.length s)

/-- The scanning loop of `findWhere` (src/evaluator.ts): a single forward
pass that skips the first `skipCount` matching entities, then collects
matches, stopping as soon as `limit` results are collected when
`hasLimit` holds.  `skipped` and `count` are the loop counters
(`skipped` matches skipped so far, `count` results collected so far). -/
def findWhereLoop (filter : Value) (hasLimit : Bool) (limit skipCount : Int) :
    List Value → Int → Int → Option (List Value)
  | [], _, _ => some []
  | e :: rest, skipped, count =>
    match evaluateCondition e filter with
    | none => none
    | some false => findWhereLoop filter hasLimit limit skipCount rest skipped count
    | some true =>
      if skipped < skipCount then
        findWhereLoop filter hasLimit limit skipCount rest (skipped + 1) count
      else if hasLimit && count + 1 ≥ limit then some [e]
      else (findWhereLoop filter hasLimit limit skipCount rest skipped (count + 1)).map
        (fun r => e :: r)

/-- `findWhere` of src/evaluator.ts.  With a falsy `filter` the result is a
plain slice (`entities.slice(offset ?? 0, limit !== undefined ? start +
limit : undefined)`).  Otherwise a single forward scan skips the first
`offset ?? 0` matching entities and collects matches, stopping early only
when a limit is present and strictly positive (`limit !== undefined &&
limit > 0`). -/
def findWhere (entities : List Value) (filter : Value) (limit offset : Option Int) :
    Option (List Value) :=
  if !Value.jsTruthy filter then
    some (jsSliceOpt entities (offset.getD 0) (limit.map (fun l => offset.getD 0 + l)))
  else
    let hasLimit := match limit with
      | some l => decide (0 < l)
      | none => false
    findWhereLoop filter hasLimit (limit.getD 0) (offset.getD 0) entities 0 0

theorem evaluateCondition_andKey (entity : Value) (cs : List Value) :
    evaluateCondition entity (Value.vObj [("and", Value.vArr cs)]) = evalAll entity cs := by
  simp [evaluateCondition, isPlainRecord, Value.hasProp, Value.getProp]

theorem evaluateCondition_orKey (entity : Value) (cs : List Value) :
    evaluateCondition entity (Value.vObj [("or", Value.vArr cs)]) = evalAny entity cs := by
  simp [evaluateCondition, isPlainRecord, Value.hasProp, Value.getProp]

theorem evaluateCondition_eqCond (entity : Value) (k : String) (v : Value) :
    evaluateCondition entity (Builders.eq k v) =
      (getFieldOpt entity k).map (fun fv => Value.strictEq fv v) := by
  simp [evaluateCondition, Builders.eq, isPlainRecord, Value.hasProp, Value.getProp,
    builtinLookup, Value.jsToString, Conditions.eq]
  cases getFieldOpt entity k <;> simp

/-- C1: the spec requires the dedicated `and` key form and the
Single-Condition form with the reserved `and` operator to evaluate
identically, and in particular requires a fieldless
`\x7b operator: 'and', value: [...] \x7d` object to act as the combinator.  On
the record `\x7b\x7d`, the dedicated empty conjunction evaluates to true, but
the fieldless operator form is captured by `isPlainRecord` (which only
excludes objects carrying both a `field` and an `operator` key) and is
rewritten by `matchesAll` into equality tests on the keys `operator` and
`value`, evaluating to false. -/
theorem c1_fieldless_and_form_diverges :
    evaluateCondition (Value.vObj []) (Value.vObj [("and", Value.vArr [])]) = some true ∧
      evaluateCondition (Value.vObj [])
        (Value.vObj [("operator", Value.vStr "and"), ("value", Value.vArr [])]) = some false := by
  constructor
  · simp [evaluateCondition, isPlainRecord, Value.hasProp, Value.getProp, evalAll]
  · simp [evaluateCondition, isPlainRecord, Value.hasProp, Value.getProp, evalPlainRecord,
      getFieldOpt, Value.strictEq, Value.beq_eq_beqValue, Value.beqValue]

/-- C3: a boolean literal passed as the whole filter evaluates to true
regardless of its truth value (both early returns in
`evaluateCondition`). -/
theorem c3_boolean_literal_filter_always_true (r : Value) :
    evaluateCondition r (Value.vBool true) = some true ∧
      evaluateCondition r (Value.vBool false) = some true := by
  constructor <;> simp [evaluateCondition]

/-- C6: with the Negation variant as declared by the `FilterCondition`
type (a fieldless `\x7b operator: 'not', value \x7d` object), double negation
does not restore the original result: `isPlainRecord` captures the
fieldless object and rewrites it to equality tests on the keys
`operator` and `value`.  On the record `\x7b\x7d` with the inner filter `true`,
the double negation evaluates to false while the filter itself evaluates
to true. -/
theorem c6_fieldless_double_negation_diverges :
    evaluateCondition (Value.vObj [])
        (Value.vObj [("operator", Value.vStr "not"),
          ("value", Value.vObj [("operator", Value.vStr "not"), ("value", Value.vBool true)])]) =
      some false ∧
      evaluateCondition (Value.vObj []) (Value.vBool true) = some true := by
  constructor
  · simp [evaluateCondition, isPlainRecord, Value.hasProp, Value.getProp, evalPlainRecord,
      getFieldOpt, Value.strictEq, Value.beq_eq_beqValue, Value.beqValue]
  · simp [evaluateCondition]

/-- C5: a Single Condition whose operator identifier is neither one of
the reserved `and`/`or`/`not` identifiers nor present in the operator
registry evaluates to false (fail closed) rather than raising, for every
entity. -/
theorem c5_unknown_operator_fails_closed (r : Value) (fld : String) (op : String) (v : Value)
    (hop : builtinLookup op = none) (h1 : op ≠ "and") (h2 : op ≠ "or") (h3 : op ≠ "not") :
    evaluateCondition r
      (Value.vObj [("field", Value.vStr fld), ("operator", Value.vStr op), ("value", v)]) =
      some false := by
  rw [evaluateCondition]
  simp [isPlainRecord, Value.hasProp, Value.getProp]
  split
  all_goals simp_all [Value.jsToString]

/-- Witness for C5 at the spec's own example: the operator `bogus`
against a concrete record. -/
theorem c5_unknown_operator_fails_closed_witness :
    evaluateCondition (Value.vObj [("age", Value.vNum 25)])
      (Value.vObj [("field", Value.vStr "age"), ("operator", Value.vStr "bogus"),
        ("value", Value.vNum 1)]) = some false :=
  c5_unknown_operator_fails_closed (Value.vObj [("age", Value.vNum 25)]) "age" "bogus"
    (Value.vNum 1) rfl (by decide) (by decide) (by decide)

theorem evaluateCondition_plainRecord (entity : Value) (kvs : List (String × Value))
    (h : isPlainRecord (Value.vObj kvs) = true) :
    evaluateCondition entity (Value.vObj kvs) = evalPlainRecord entity kvs := by
  rw [evaluateCondition]
  simp [h]

theorem evalAll_eqConds (entity : Value) (kvs : List (String × Value)) :
    evalAll entity (kvs.map (fun kv => Builders.eq kv.1 kv.2)) = evalPlainRecord entity kvs := by
  induction kvs with
  | nil => simp [evalAll, evalPlainRecord]
  | cons kv rest ih =>
    obtain ⟨k, v⟩ := kv
    cases hf : getFieldOpt entity k with
    | none => simp [evalAll, evalPlainRecord, evaluateCondition_eqCond, hf]
    | some fv =>
      cases hsv : Value.strictEq fv v
      · simp [evalAll, evalPlainRecord, evaluateCondition_eqCond, hf, hsv]
      · simp [evalAll, evalPlainRecord, evaluateCondition_eqCond, hf, hsv, ih]

theorem filter_jsTruthy_eqConds (kvs : List (String × Value)) :
    (kvs.map (fun kv => Builders.eq kv.1 kv.2)).filter Value.jsTruthy =
      kvs.map (fun kv => Builders.eq kv.1 kv.2) := by
  apply List.filter_eq_self.mpr
  intro a ha
  obtain ⟨kv, _, rfl⟩ := List.mem_map.mp ha
  rfl

/-- C7: a plain key/value mapping filter (one that `isPlainRecord`
recognizes: no `field`+`operator` pair and no `and`/`or` key) evaluates
exactly like the explicit conjunction of per-key strict-equality
conditions built by the `eq` and `and` builders, for every entity
(including the propagation of a property-read exception, in the same
property order). -/
theorem c7_plain_mapping_sugar (r : Value) (kvs : List (String × Value))
    (h : isPlainRecord (Value.vObj kvs) = true) :
    evaluateCondition r (Value.vObj kvs) =
      evaluateCondition r (Builders.and (kvs.map (fun kv => Builders.eq kv.1 kv.2))) := by
  rw [evaluateCondition_plainRecord r kvs h, Builders.and, filter_jsTruthy_eqConds,
    evaluateCondition_andKey, evalAll_eqConds]

/-- Witness for C7: the two-key mapping from the spec's running example. -/
theorem c7_plain_mapping_sugar_witness :
    evaluateCondition (Value.vObj [("name", Value.vStr "John"), ("age", Value.vNum 30)])
        (Value.vObj [("name", Value.vStr "John"), ("age", Value.vNum 30)]) =
      evaluateCondition (Value.vObj [("name", Value.vStr "John"), ("age", Value.vNum 30)])
        (Builders.and
          ([("name", Value.vStr "John"), ("age", Value.vNum 30)].map
            (fun kv => Builders.eq kv.1 kv.2))) :=
  c7_plain_mapping_sugar (Value.vObj [("name", Value.vStr "John"), ("age", Value.vNum 30)])
    [("name", Value.vStr "John"), ("age", Value.vNum 30)] (by decide)

theorem eval_of_falsy (r c : Value) (a : Bool) (hc : Value.jsTruthy c = false)
    (h : evaluateCondition r c = some a) : a = true := by
  cases c <;> simp_all [evaluateCondition, Value.jsTruthy]

theorem evalAll_of_forall2 (r : Value) (cs : List Value) (bs : List Bool)
    (h : List.Forall₂ (fun c b => evaluateCondition r c = some b) cs bs) :
    evalAll r cs = some (bs.all id) := by
  induction h with
  | nil => simp [evalAll]
  | cons h1 h2 ih =>
    rename_i c b rest bsRest
    cases b
    · simp [evalAll, h1]
    · simp [evalAll, h1, ih]

theorem evalAny_of_forall2 (r : Value) (cs : List Value) (bs : List Bool)
    (h : List.Forall₂ (fun c b => evaluateCondition r c = some b) cs bs) :
    evalAny r cs = some (bs.any id) := by
  induction h with
  | nil => simp [evalAny]
  | cons h1 h2 ih =>
    rename_i c b rest bsRest
    cases b
    · simp [evalAny, h1, ih]
    · simp [evalAny, h1]

/-- C8: the dedicated-key Conjunction is true iff every element is true
(vacuously true on the empty sequence), the Disjunction is true iff some
element is true (vacuously false on the empty sequence), and the `and`
and `or` builders satisfy the AND/OR duality whenever both operands
evaluate without exception. -/
theorem c8_conjunction_disjunction (r : Value) (cs : List Value) (bs : List Bool)
    (c1 c2 : Value) (a b : Bool)
    (hcs : List.Forall₂ (fun c bv => evaluateCondition r c = some bv) cs bs)
    (h1 : evaluateCondition r c1 = some a) (h2 : evaluateCondition r c2 = some b) :
    evaluateCondition r (Value.vObj [("and", Value.vArr cs)]) = some (bs.all id) ∧
      evaluateCondition r (Value.vObj [("or", Value.vArr cs)]) = some (bs.any id) ∧
      evaluateCondition r (Builders.and [c1, c2]) = some (a && b) ∧
      evaluateCondition r (Builders.or [c1, c2]) = some (a || b) := by
  refine ⟨?_, ?_, ?_, ?_⟩
  · rw [evaluateCondition_andKey]
    exact evalAll_of_forall2 r cs bs hcs
  · rw [evaluateCondition_orKey]
    exact evalAny_of_forall2 r cs bs hcs
  · rw [Builders.and]
    cases ht1 : Value.jsTruthy c1 <;> cases ht2 : Value.jsTruthy c2
    · have ha := eval_of_falsy r c1 a ht1 h1
      have hb := eval_of_falsy r c2 b ht2 h2
      subst ha
      subst hb
      have hf : [c1, c2].filter Value.jsTruthy = [] := by simp [ht1, ht2]
      rw [hf, evaluateCondition_andKey]
      simp [evalAll]
    · have ha := eval_of_falsy r c1 a ht1 h1
      subst ha
      have hf : [c1, c2].filter Value.jsTruthy = [c2] := by simp [ht1, ht2]
      rw [hf, evaluateCondition_andKey]
      cases b <;> simp [evalAll, h2]
    · have hb := eval_of_falsy r c2 b ht2 h2
      subst hb
      have hf : [c1, c2].filter Value.jsTruthy = [c1] := by simp [ht1, ht2]
      rw [hf, evaluateCondition_andKey]
      cases a <;> simp [evalAll, h1]
    · have hf : [c1, c2].filter Value.jsTruthy = [c1, c2] := by simp [ht1, ht2]
      rw [hf, evaluateCondition_andKey]
      cases a <;> cases b <;> simp [evalAll, h1, h2]
  · rw [Builders.or, evaluateCondition_orKey]
    cases a <;> cases b <;> simp [evalAny, h1, h2]

/-- Witness for C8 at the empty sequence and the operands `null` and
`false` (both evaluate to true; the falsy ones are filtered out by the
`and` builder without changing the result). -/
theorem c8_conjunction_disjunction_witness :
    evaluateCondition (Value.vObj []) (Value.vObj [("and", Value.vArr [])]) =
        some (List.all [] id) ∧
      evaluateCondition (Value.vObj []) (Value.vObj [("or", Value.vArr [])]) =
        some (List.any [] id) ∧
      evaluateCondition (Value.vObj []) (Builders.and [Value.vNull, Value.vBool false]) =
        some (true && true) ∧
      evaluateCondition (Value.vObj []) (Builders.or [Value.vNull, Value.vBool false]) =
        some (true || true) :=
  c8_conjunction_disjunction (Value.vObj []) [] [] Value.vNull (Value.vBool false) true true
    List.Forall₂.nil (by simp [evaluateCondition]) (by simp [evaluateCondition])

/-- C9: the `matches` predicate accepts a compiled pattern or a
pattern-source string; for every field value an unparsable source string
yields false (no exception), a non-string field value yields false for
every pattern, and on a string field value the result is the compiled
pattern's test against the string, whether the pattern arrived compiled
or as a source string. -/
theorem c9_matches_pattern_resolution (x : Value) (bad good subj rsrc : String) (re : Regex)
    (hbad : RegexModel.parseRegex bad = none)
    (hgood : RegexModel.parseRegex good = some re)
    (hx : ∀ t, x ≠ Value.vStr t) :
    (∀ y : Value, Conditions.matchesPattern y (Value.vStr bad) = false) ∧
      (∀ p : Value, Conditions.matchesPattern x p = false) ∧
      Conditions.matchesPattern (Value.vStr subj) (Value.vStr good) =
        RegexModel.regexTest re subj ∧
      Conditions.matchesPattern (Value.vStr subj) (Value.vRegex rsrc re) =
        RegexModel.regexTest re subj := by
  refine ⟨?_, ?_, ?_, ?_⟩
  · intro y
    simp [Conditions.matchesPattern, Conditions.resolvePattern, hbad]
  · intro p
    rw [Conditions.matchesPattern]
    cases hp : Conditions.resolvePattern p with
    | none => rfl
    | some r0 =>
      cases x with
      | vStr t => exact absurd rfl (hx t)
      | vNull => rfl
      | vUndefined => rfl
      | vBool b => rfl
      | vNum n => rfl
      | vArr xs => rfl
      | vObj kvs => rfl
      | vDate t => rfl
      | vRegex s0 r1 => rfl
  · simp [Conditions.matchesPattern, Conditions.resolvePattern, hgood]
  · simp [Conditions.matchesPattern, Conditions.resolvePattern]

/-- Witness for C9: the unparsable source `(`, the source `h`, and a
number as the non-string field value. -/
theorem c9_matches_pattern_resolution_witness :
    (∀ y : Value, Conditions.matchesPattern y (Value.vStr "(") = false) ∧
      (∀ p : Value, Conditions.matchesPattern (Value.vNum 5) p = false) ∧
      Conditions.matchesPattern (Value.vStr "hello") (Value.vStr "h") =
        RegexModel.regexTest (Regex.seq (Regex.rchar 'h') Regex.epsilon) "hello" ∧
      Conditions.matchesPattern (Value.vStr "hello")
          (Value.vRegex "h" (Regex.seq (Regex.rchar 'h') Regex.epsilon)) =
        RegexModel.regexTest (Regex.seq (Regex.rchar 'h') Regex.epsilon) "hello" :=
  c9_matches_pattern_resolution (Value.vNum 5) "(" "h" "hello" "h"
    (Regex.seq (Regex.rchar 'h') Regex.epsilon) (by decide) (by decide)
    (fun t h => Value.noConfusion h)

theorem findWhereLoop_noLimit (filter : Value) (limit : Int) :
    ∀ (entities : List Value) (fs : List Value) (skipCount skipped count : Int),
      filterEntities entities filter = some fs →
      findWhereLoop filter false limit skipCount entities skipped count =
        some (fs.drop (skipCount - skipped).toNat) := by
  intro entities
  induction entities with
  | nil =>
    intro fs sc s c h
    simp [filterEntities] at h
    subst h
    simp [findWhereLoop]
  | cons e rest ih =>
    intro fs sc s c h
    rw [filterEntities] at h
    cases he : getEvaluator filter e with
    | none => rw [he] at h; simp at h
    | some b =>
      rw [he] at h
      cases hrest : filterEntities rest filter with
      | none => rw [hrest] at h; simp at h
      | some fs' =>
        rw [hrest] at h
        simp at h
        have heval : evaluateCondition e filter = some b := he
        cases b with
        | false =>
          subst h
          rw [findWhereLoop, heval]
          exact ih fs' sc s c hrest
        | true =>
          subst h
          rw [findWhereLoop, heval]
          by_cases hs : s < sc
          · simp only [hs, if_true]
            rw [ih fs' sc (s + 1) c hrest]
            have : (sc - s).toNat = (sc - (s + 1)).toNat + 1 := by omega
            rw [this, List.drop_succ_cons]
          · simp only [hs, if_false]
            have h0 : (sc - s).toNat = 0 := by omega
            simp only [Bool.false_and, Bool.false_eq_true, if_false]
            rw [ih fs' sc s (c + 1) hrest]
            simp [h0]

theorem findWhereLoop_limit (filter : Value) (l : Int) :
    ∀ (entities : List Value) (fs : List Value) (skipCount skipped count : Int),
      filterEntities entities filter = some fs → count < l →
      findWhereLoop filter true l skipCount entities skipped count =
        some ((fs.drop (skipCount - skipped).toNat).take (l - count).toNat) := by
  intro entities
  induction entities with
  | nil =>
    intro fs sc s c h hc
    simp [filterEntities] at h
    subst h
    simp [findWhereLoop]
  | cons e rest ih =>
    intro fs sc s c h hc
    rw [filterEntities] at h
    cases he : getEvaluator filter e with
    | none => rw [he] at h; simp at h
    | some b =>
      rw [he] at h
      cases hrest : filterEntities rest filter with
      | none => rw [hrest] at h; simp at h
      | some fs' =>
        rw [hrest] at h
        simp at h
        have heval : evaluateCondition e filter = some b := he
        cases b with
        | false =>
          subst h
          rw [findWhereLoop, heval]
          exact ih fs' sc s c hrest hc
        | true =>
          subst h
          rw [findWhereLoop, heval]
          by_cases hs : s < sc
          · simp only [hs, if_true]
            rw [ih fs' sc (s + 1) c hrest hc]
            have : (sc - s).toNat = (sc - (s + 1)).toNat + 1 := by omega
            rw [this, List.drop_succ_cons]
          · simp only [hs, if_false]
            have h0 : (sc - s).toNat = 0 := by omega
            by_cases hl : c + 1 ≥ l
            · have : (true && decide (c + 1 ≥ l)) = true := by simp [hl]
              rw [this]
              simp only [if_true]
              have h1 : (l - c).toNat = 1 := by omega
              simp [h0, h1]
            · have : (true && decide (c + 1 ≥ l)) = false := by simp [hl]
              rw [this]
              simp only [Bool.false_eq_true, if_false]
              rw [ih fs' sc s (c + 1) hrest (by omega)]
              have h1 : (l - c).toNat = (l - (c + 1)).toNat + 1 := by omega
              simp [h0, h1]

theorem dropTake_eq_jsSlice (fs : List Value) (o l : Int) (ho : 0 ≤ o) (hl : 1 ≤ l) :
    (fs.drop o.toNat).take l.toNat = jsSlice fs o (o + l) := by
  unfold jsSlice
  have hs : jsClampIdx fs.length o = min o.toNat fs.length := by unfold jsClampIdx; omega
  have he : jsClampIdx fs.length (o + l) = min (o.toNat + l.toNat) fs.length := by
    unfold jsClampIdx; omega
  rw [hs, he]
  rcases Nat.lt_or_ge o.toNat fs.length with h | h
  · have h1 : min o.toNat fs.length = o.toNat := by omega
    rw [h1]
    apply List.take_eq_take.mpr
    simp [List.length_drop]
    omega
  · have h1 : min o.toNat fs.length = fs.length := by omega
    rw [h1]
    rw [List.drop_eq_nil_of_le h, List.drop_eq_nil_of_le (le_refl _)]
    simp

theorem filterEntities_falsy (filter : Value) (hflt : Value.jsTruthy filter = false) :
    ∀ (entities fs : List Value), filterEntities entities filter = some fs → fs = entities := by
  intro entities
  induction entities with
  | nil => intro fs h; simp [filterEntities] at h; exact h
  | cons e rest ih =>
    intro fs h
    rw [filterEntities] at h
    cases he : getEvaluator filter e with
    | none => rw [he] at h; simp at h
    | some b =>
      rw [he] at h
      have hb := eval_of_falsy e filter b hflt he
      subst hb
      cases hrest : filterEntities rest filter with
      | none => rw [hrest] at h; simp at h
      | some fs' =>
        rw [hrest] at h
        simp at h
        subst h
        rw [ih fs' hrest]

/-- C10: with a (truthy) filter and limit 0, the guard `limit !== undefined
&& limit > 0` leaves the scan unbounded, so `findWhere` returns every
matching record after the offset; with no filter, limit 0 produces the
empty slice `entities.slice(offset, offset + 0)`. -/
theorem c10_limit_zero_ignored_with_filter (entities : List Value) (filter : Value)
    (o : Int) (fs : List Value)
    (ht : Value.jsTruthy filter = true)
    (hf : filterEntities entities filter = some fs) :
    findWhere entities filter (some 0) (some o) = some (fs.drop o.toNat) ∧
      findWhere entities Value.vUndefined (some 0) (some o) = some [] := by
  constructor
  · rw [findWhere]
    simp only [ht, Bool.not_true, Bool.false_eq_true, if_false]
    have hloop := findWhereLoop_noLimit filter 0 entities fs o 0 0 hf
    simpa using hloop
  · rw [findWhere]
    simp [Value.jsTruthy, jsSliceOpt, jsSlice]

/-- Witness for C10 at a one-record collection, the empty-mapping filter
(which accepts everything) and offset 1. -/
theorem c10_limit_zero_ignored_with_filter_witness :
    findWhere [Value.vObj []] (Value.vObj []) (some 0) (some 1) =
        some ([Value.vObj []].drop (Int.toNat 1)) ∧
      findWhere [Value.vObj []] Value.vUndefined (some 0) (some 1) = some [] :=
  c10_limit_zero_ignored_with_filter [Value.vObj []] (Value.vObj []) 1 [Value.vObj []]
    rfl
    (by simp [filterEntities, getEvaluator, evaluateCondition, isPlainRecord, Value.hasProp,
      Value.getProp, evalPlainRecord])

/-- C2, as stated, fails at limit 0: with the truthy filter `\x7b\x7d` (accept
everything) over a one-record collection, `findWhere` with limit 0 and
offset 0 returns the whole collection, while filter-then-slice returns
the empty sequence. -/
theorem c2_pagination_limit_zero_cex :
    ¬ (findWhere [Value.vObj []] (Value.vObj []) (some 0) (some 0) =
        (filterEntities [Value.vObj []] (Value.vObj [])).map
          (fun fs => jsSlice fs 0 (0 + 0))) := by
  simp [findWhere, findWhereLoop, filterEntities, getEvaluator, evaluateCondition, isPlainRecord,
    Value.hasProp, Value.getProp, evalPlainRecord, Value.jsTruthy, jsSlice, jsClampIdx, jsSliceOpt]

/-- C2 amended: with a strictly positive limit (`l ≥ 1`), a nonnegative
offset, and a filter whose evaluation returns a boolean on every record
of the collection (captured by `filterEntities` succeeding), the
early-terminating scan of `findWhere` agrees with filter-then-slice:
`findWhere(R, \x7b filter, limit, offset \x7d) = filterEntities(R, filter)
.slice(offset, offset + limit)`.  At limit 0 the scan ignores the limit
(see the counterexample and C10); a negative offset or an exception mid
scan also separate the two sides. -/
theorem c2_pagination_consistency_amended (entities : List Value) (filter : Value)
    (l o : Int) (fs : List Value) (hl : 1 ≤ l) (ho : 0 ≤ o)
    (hf : filterEntities entities filter = some fs) :
    findWhere entities filter (some l) (some o) = some (jsSlice fs o (o + l)) := by
  rw [findWhere]
  cases ht : Value.jsTruthy filter with
  | false =>
    have hfs := filterEntities_falsy filter ht entities fs hf
    subst hfs
    simp [ht, jsSliceOpt]
  | true =>
    simp only [ht, Bool.not_true, Bool.false_eq_true, if_false]
    have hd : decide (0 < l) = true := by simp only [decide_eq_true_eq]; omega
    simp only [hd, Option.getD]
    have hloop := findWhereLoop_limit filter l entities fs o 0 0 hf (by omega)
    simp only [Int.sub_zero] at hloop
    rw [hloop, dropTake_eq_jsSlice fs o l ho hl]

/-- Witness for C2 amended: one matching record, limit 1, offset 0. -/
theorem c2_pagination_consistency_amended_witness :
    findWhere [Value.vObj []] (Value.vObj []) (some 1) (some 0) =
      some (jsSlice [Value.vObj []] 0 (0 + 1)) :=
  c2_pagination_consistency_amended [Value.vObj []] (Value.vObj []) 1 0 [Value.vObj []]
    (by omega) (by omega)
    (by simp [filterEntities, getEvaluator, evaluateCondition, isPlainRecord, Value.hasProp,
      Value.getProp, evalPlainRecord])

theorem step_andProp (entity : Value) (kvs : List (String × Value)) (cs : List Value)
    (hpr : ¬ isPlainRecord (Value.vObj kvs) = true)
    (hA : Value.getProp kvs "and" = some (Value.vArr cs)) :
    evaluateCondition entity (Value.vObj kvs) = evalAll entity cs := by
  conv_lhs => rw [evaluateCondition]
  try simp only [hpr, Bool.false_eq_true, if_false]
  split <;> try simp_all
  all_goals try (split <;> try simp_all)
  all_goals try (split <;> simp_all)
  all_goals simp_all

theorem step_orProp (entity : Value) (kvs : List (String × Value)) (cs : List Value)
    (hpr : ¬ isPlainRecord (Value.vObj kvs) = true)
    (hA : ∀ ds : List Value, Value.getProp kvs "and" ≠ some (Value.vArr ds))
    (hO : Value.getProp kvs "or" = some (Value.vArr cs)) :
    evaluateCondition entity (Value.vObj kvs) = evalAny entity cs := by
  conv_lhs => rw [evaluateCondition]
  try simp only [hpr, Bool.false_eq_true, if_false]
  split <;> try simp_all
  all_goals try (split <;> try simp_all)
  all_goals try (split <;> simp_all)
  all_goals simp_all

theorem step_opAnd (entity : Value) (kvs : List (String × Value)) (cs : List Value)
    (hpr : ¬ isPlainRecord (Value.vObj kvs) = true)
    (hA : ∀ ds : List Value, Value.getProp kvs "and" ≠ some (Value.vArr ds))
    (hO : ∀ ds : List Value, Value.getProp kvs "or" ≠ some (Value.vArr ds))
    (hP : Value.getProp kvs "operator" = some (Value.vStr "and"))
    (hV : Value.getProp kvs "value" = some (Value.vArr cs)) :
    evaluateCondition entity (Value.vObj kvs) = evalAll entity cs := by
  conv_lhs => rw [evaluateCondition]
  try simp only [hpr, Bool.false_eq_true, if_false]
  split <;> try simp_all
  all_goals try (split <;> try simp_all)
  all_goals try (split <;> simp_all)
  all_goals simp_all

theorem step_opOr (entity : Value) (kvs : List (String × Value)) (cs : List Value)
    (hpr : ¬ isPlainRecord (Value.vObj kvs) = true)
    (hA : ∀ ds : List Value, Value.getProp kvs "and" ≠ some (Value.vArr ds))
    (hO : ∀ ds : List Value, Value.getProp kvs "or" ≠ some (Value.vArr ds))
    (hP : Value.getProp kvs "operator" = some (Value.vStr "or"))
    (hV : Value.getProp kvs "value" = some (Value.vArr cs)) :
    evaluateCondition entity (Value.vObj kvs) = evalAny entity cs := by
  conv_lhs => rw [evaluateCondition]
  try simp only [hpr, Bool.false_eq_true, if_false]
  split <;> try simp_all
  all_goals try (split <;> try simp_all)
  all_goals try (split <;> simp_all)
  all_goals simp_all

theorem step_opNot (entity : Value) (kvs : List (String × Value)) (v : Value)
    (hpr : ¬ isPlainRecord (Value.vObj kvs) = true)
    (hA : ∀ ds : List Value, Value.getProp kvs "and" ≠ some (Value.vArr ds))
    (hO : ∀ ds : List Value, Value.getProp kvs "or" ≠ some (Value.vArr ds))
    (hP : Value.getProp kvs "operator" = some (Value.vStr "not"))
    (hV : Value.getProp kvs "value" = some v) :
    evaluateCondition entity (Value.vObj kvs) =
      (evaluateCondition entity v).map (fun b => !b) := by
  conv_lhs => rw [evaluateCondition]
  try simp only [hpr, Bool.false_eq_true, if_false]
  split <;> try simp_all
  all_goals try (split <;> try simp_all)
  all_goals try (split <;> simp_all)
  all_goals simp_all

theorem step_opNotNone (entity : Value) (kvs : List (String × Value))
    (hpr : ¬ isPlainRecord (Value.vObj kvs) = true)
    (hA : ∀ ds : List Value, Value.getProp kvs "and" ≠ some (Value.vArr ds))
    (hO : ∀ ds : List Value, Value.getProp kvs "or" ≠ some (Value.vArr ds))
    (hP : Value.getProp kvs "operator" = some (Value.vStr "not"))
    (hV : Value.getProp kvs "value" = none) :
    evaluateCondition entity (Value.vObj kvs) =
      (evaluateCondition entity Value.vUndefined).map (fun b => !b) := by
  conv_lhs => rw [evaluateCondition]
  try simp only [hpr, Bool.false_eq_true, if_false]
  split <;> try simp_all
  all_goals try (split <;> try simp_all)
  all_goals try (split <;> simp_all)
  all_goals simp_all

theorem step_registry_none (entity : Value) (kvs : List (String × Value))
    (hpr : ¬ isPlainRecord (Value.vObj kvs) = true)
    (hA : ∀ ds : List Value, Value.getProp kvs "and" ≠ some (Value.vArr ds))
    (hO : ∀ ds : List Value, Value.getProp kvs "or" ≠ some (Value.vArr ds))
    (hP1 : Value.getProp kvs "operator" ≠ some (Value.vStr "and"))
    (hP2 : Value.getProp kvs "operator" ≠ some (Value.vStr "or"))
    (hP3 : Value.getProp kvs "operator" ≠ some (Value.vStr "not"))
    (hL : builtinLookup
        (Value.jsToString ((Value.getProp kvs "operator").getD Value.vUndefined)) = none) :
    evaluateCondition entity (Value.vObj kvs) = some false := by
  conv_lhs => rw [evaluateCondition]
  try simp only [hpr, Bool.false_eq_true, if_false]
  split <;> try simp_all
  all_goals try (split <;> try simp_all)
  all_goals try (split <;> simp_all)
  all_goals simp_all

theorem step_registry_some (entity : Value) (kvs : List (String × Value))
    (f : Value → Value → Option Bool)
    (hpr : ¬ isPlainRecord (Value.vObj kvs) = true)
    (hA : ∀ ds : List Value, Value.getProp kvs "and" ≠ some (Value.vArr ds))
    (hO : ∀ ds : List Value, Value.getProp kvs "or" ≠ some (Value.vArr ds))
    (hP1 : Value.getProp kvs "operator" ≠ some (Value.vStr "and"))
    (hP2 : Value.getProp kvs "operator" ≠ some (Value.vStr "or"))
    (hP3 : Value.getProp kvs "operator" ≠ some (Value.vStr "not"))
    (hL : builtinLookup
        (Value.jsToString ((Value.getProp kvs "operator").getD Value.vUndefined)) = some f) :
    evaluateCondition entity (Value.vObj kvs) =
      (match getFieldOpt entity
          (Value.jsToString ((Value.getProp kvs "field").getD Value.vUndefined)) with
      | none => none
      | some fv => f fv ((Value.getProp kvs "value").getD Value.vUndefined)) := by
  conv_lhs => rw [evaluateCondition]
  try simp only [hpr, Bool.false_eq_true, if_false]
  split <;> try simp_all
  all_goals try (split <;> try simp_all)
  all_goals try (split <;> simp_all)
  all_goals simp_all

/-- Values on which JS property reads succeed (everything except `null`
and `undefined`). -/
def entityOk : Value → Bool
  | Value.vNull => false
  | Value.vUndefined => false
  | _ => true

theorem getFieldOpt_isSome (entity : Value) (he : entityOk entity = true) (k : String) :
    (getFieldOpt entity k).isSome := by
  cases entity <;> simp_all [entityOk, getFieldOpt]

theorem evalPlainRecord_isSome (entity : Value) (he : entityOk entity = true) :
    ∀ kvs : List (String × Value), (evalPlainRecord entity kvs).isSome := by
  intro kvs
  induction kvs with
  | nil => simp [evalPlainRecord]
  | cons kv rest ih =>
    obtain ⟨k, v⟩ := kv
    have h := getFieldOpt_isSome entity he k
    cases hf : getFieldOpt entity k with
    | none => rw [hf] at h; simp at h
    | some fv =>
      cases hs : Value.strictEq fv v
      · simp [evalPlainRecord, hf, hs]
      · simp [evalPlainRecord, hf, hs, ih]

theorem evalAll_isSome (entity : Value) :
    ∀ cs : List Value, (∀ c ∈ cs, (evaluateCondition entity c).isSome) →
      (evalAll entity cs).isSome := by
  intro cs
  induction cs with
  | nil => intro h; simp [evalAll]
  | cons c rest ih =>
    intro h
    have hc := h c (by simp)
    cases he2 : evaluateCondition entity c with
    | none => rw [he2] at hc; simp at hc
    | some b =>
      cases b
      · simp [evalAll, he2]
      · simp only [evalAll, he2]
        exact ih (fun c' hc' => h c' (by simp [hc']))

theorem evalAny_isSome (entity : Value) :
    ∀ cs : List Value, (∀ c ∈ cs, (evaluateCondition entity c).isSome) →
      (evalAny entity cs).isSome := by
  intro cs
  induction cs with
  | nil => intro h; simp [evalAny]
  | cons c rest ih =>
    intro h
    have hc := h c (by simp)
    cases he2 : evaluateCondition entity c with
    | none => rw [he2] at hc; simp at hc
    | some b =>
      cases b
      · simp only [evalAny, he2]
        exact ih (fun c' hc' => h c' (by simp [hc']))
      · simp [evalAny, he2]

theorem builtin_total (key : String) (f : Value → Value → Option Bool)
    (hk : key ≠ "matchesZodSchema") (h : builtinLookup key = some f) :
    ∀ x v : Value, (f x v).isSome := by
  intro x v
  revert h
  unfold builtinLookup
  split <;> intro h <;>
    first
      | (simp_all; done)
      | (have h2 := (Option.some.inj h).symm; subst h2; simp)

/-- Filters on which `evaluateCondition` provably cannot raise.  The
excluded shapes are bare numbers and strings (the `'and' in condition`
membership probe raises a TypeError), logical `and`/`or` operator
conditions whose `value` is not an array (`.every`/`.some` raises), and
schema-match conditions (the capability invocation raises within the
plain-data model).  The constructors follow the evaluator's dispatch
order, each carrying the preconditions under which its branch is
reached. -/
inductive SafeFilter : Value → Prop where
  | null : SafeFilter Value.vNull
  | undef : SafeFilter Value.vUndefined
  | bool (b : Bool) : SafeFilter (Value.vBool b)
  | date (t : Int) : SafeFilter (Value.vDate t)
  | regex (s : String) (re : Regex) : SafeFilter (Value.vRegex s re)
  | list (cs : List Value) : (∀ c ∈ cs, SafeFilter c) → SafeFilter (Value.vArr cs)
  | plain (kvs : List (String × Value)) :
      isPlainRecord (Value.vObj kvs) = true → SafeFilter (Value.vObj kvs)
  | andKey (kvs : List (String × Value)) (cs : List Value) :
      ¬ isPlainRecord (Value.vObj kvs) = true →
      Value.getProp kvs "and" = some (Value.vArr cs) →
      (∀ c ∈ cs, SafeFilter c) → SafeFilter (Value.vObj kvs)
  | orKey (kvs : List (String × Value)) (cs : List Value) :
      ¬ isPlainRecord (Value.vObj kvs) = true →
      (∀ ds : List Value, Value.getProp kvs "and" ≠ some (Value.vArr ds)) →
      Value.getProp kvs "or" = some (Value.vArr cs) →
      (∀ c ∈ cs, SafeFilter c) → SafeFilter (Value.vObj kvs)
  | opAnd (kvs : List (String × Value)) (cs : List Value) :
      ¬ isPlainRecord (Value.vObj kvs) = true →
      (∀ ds : List Value, Value.getProp kvs "and" ≠ some (Value.vArr ds)) →
      (∀ ds : List Value, Value.getProp kvs "or" ≠ some (Value.vArr ds)) →
      Value.getProp kvs "operator" = some (Value.vStr "and") →
      Value.getProp kvs "value" = some (Value.vArr cs) →
      (∀ c ∈ cs, SafeFilter c) → SafeFilter (Value.vObj kvs)
  | opOr (kvs : List (String × Value)) (cs : List Value) :
      ¬ isPlainRecord (Value.vObj kvs) = true →
      (∀ ds : List Value, Value.getProp kvs "and" ≠ some (Value.vArr ds)) →
      (∀ ds : List Value, Value.getProp kvs "or" ≠ some (Value.vArr ds)) →
      Value.getProp kvs "operator" = some (Value.vStr "or") →
      Value.getProp kvs "value" = some (Value.vArr cs) →
      (∀ c ∈ cs, SafeFilter c) → SafeFilter (Value.vObj kvs)
  | opNot (kvs : List (String × Value)) (v : Value) :
      ¬ isPlainRecord (Value.vObj kvs) = true →
      (∀ ds : List Value, Value.getProp kvs "and" ≠ some (Value.vArr ds)) →
      (∀ ds : List Value, Value.getProp kvs "or" ≠ some (Value.vArr ds)) →
      Value.getProp kvs "operator" = some (Value.vStr "not") →
      Value.getProp kvs "value" = some v →
      SafeFilter v → SafeFilter (Value.vObj kvs)
  | opNotNone (kvs : List (String × Value)) :
      ¬ isPlainRecord (Value.vObj kvs) = true →
      (∀ ds : List Value, Value.getProp kvs "and" ≠ some (Value.vArr ds)) →
      (∀ ds : List Value, Value.getProp kvs "or" ≠ some (Value.vArr ds)) →
      Value.getProp kvs "operator" = some (Value.vStr "not") →
      Value.getProp kvs "value" = none →
      SafeFilter (Value.vObj kvs)
  | registry (kvs : List (String × Value)) :
      ¬ isPlainRecord (Value.vObj kvs) = true →
      (∀ ds : List Value, Value.getProp kvs "and" ≠ some (Value.vArr ds)) →
      (∀ ds : List Value, Value.getProp kvs "or" ≠ some (Value.vArr ds)) →
      Value.getProp kvs "operator" ≠ some (Value.vStr "and") →
      Value.getProp kvs "operator" ≠ some (Value.vStr "or") →
      Value.getProp kvs "operator" ≠ some (Value.vStr "not") →
      Value.jsToString ((Value.getProp kvs "operator").getD Value.vUndefined) ≠
        "matchesZodSchema" →
      SafeFilter (Value.vObj kvs)

/-- C4 amended: on any entity admitting property reads (not
`null`/`undefined`) and any filter in the `SafeFilter` class,
`evaluateCondition` returns a boolean — in particular unknown operators
and mismatched operand types of the registry predicates fail closed
rather than raising.  Outside the class the engine can raise: a logical
operator condition with a non-sequence `value` (see the counterexample),
a bare number or string filter, or a schema-match condition. -/
theorem c4_safe_evaluation_total (entity : Value) (he : entityOk entity = true)
    (c : Value) (hc : SafeFilter c) : (evaluateCondition entity c).isSome := by
  induction hc with
  | null => simp [evaluateCondition]
  | undef => simp [evaluateCondition]
  | bool b => simp [evaluateCondition]
  | date t => simp [evaluateCondition]
  | regex s re => simp [evaluateCondition]
  | list cs hmem ih =>
    rw [show evaluateCondition entity (Value.vArr cs) = evalAll entity cs from by
      rw [evaluateCondition]]
    exact evalAll_isSome entity cs ih
  | plain kvs hpr =>
    rw [evaluateCondition_plainRecord entity kvs hpr]
    exact evalPlainRecord_isSome entity he kvs
  | andKey kvs cs hpr hA hmem ih =>
    rw [step_andProp entity kvs cs hpr hA]
    exact evalAll_isSome entity cs ih
  | orKey kvs cs hpr hA hO hmem ih =>
    rw [step_orProp entity kvs cs hpr hA hO]
    exact evalAny_isSome entity cs ih
  | opAnd kvs cs hpr hA hO hP hV hmem ih =>
    rw [step_opAnd entity kvs cs hpr hA hO hP hV]
    exact evalAll_isSome entity cs ih
  | opOr kvs cs hpr hA hO hP hV hmem ih =>
    rw [step_opOr entity kvs cs hpr hA hO hP hV]
    exact evalAny_isSome entity cs ih
  | opNot kvs v hpr hA hO hP hV hsafe ih =>
    rw [step_opNot entity kvs v hpr hA hO hP hV]
    cases hv2 : evaluateCondition entity v with
    | none => rw [hv2] at ih; simp at ih
    | some b => simp
  | opNotNone kvs hpr hA hO hP hV =>
    rw [step_opNotNone entity kvs hpr hA hO hP hV]
    simp [evaluateCondition]
  | registry kvs hpr hA hO hP1 hP2 hP3 hzod =>
    cases hL : builtinLookup
        (Value.jsToString ((Value.getProp kvs "operator").getD Value.vUndefined)) with
    | none =>
      rw [step_registry_none entity kvs hpr hA hO hP1 hP2 hP3 hL]
      simp
    | some f =>
      rw [step_registry_some entity kvs f hpr hA hO hP1 hP2 hP3 hL]
      have hfv := getFieldOpt_isSome entity he
        (Value.jsToString ((Value.getProp kvs "field").getD Value.vUndefined))
      cases hf2 : getFieldOpt entity
          (Value.jsToString ((Value.getProp kvs "field").getD Value.vUndefined)) with
      | none => rw [hf2] at hfv; simp at hfv
      | some fv =>
        simp only [hf2]
        exact builtin_total _ f hzod hL fv _

/-- C4 counterexample: a logical-operator condition whose value is not a
sequence — the claim's own example of a malformed filter that should
fail closed — raises instead (the model's `none`, standing for the
TypeError from calling `.every` on a number). -/
theorem c4_nonarray_logical_value_raises :
    evaluateCondition (Value.vObj [])
      (Value.vObj [("field", Value.vStr "x"), ("operator", Value.vStr "and"),
        ("value", Value.vNum 5)]) = none := by
  simp [evaluateCondition, isPlainRecord, Value.hasProp, Value.getProp]

/-- Witness for C4 amended: `contains` applied to a number field value (a
mismatched operand type) evaluates without raising. -/
theorem c4_safe_evaluation_total_witness :
    (evaluateCondition (Value.vObj [("x", Value.vNum 3)])
      (Value.vObj [("field", Value.vStr "x"), ("operator", Value.vStr "contains"),
        ("value", Value.vNum 3)])).isSome :=
  c4_safe_evaluation_total (Value.vObj [("x", Value.vNum 3)]) rfl
    (Value.vObj [("field", Value.vStr "x"), ("operator", Value.vStr "contains"),
      ("value", Value.vNum 3)])
    (SafeFilter.registry _ (by decide)
      (fun ds h => by simp [Value.getProp] at h)
      (fun ds h => by simp [Value.getProp] at h)
      (by simp [Value.getProp])
      (by simp [Value.getProp])
      (by simp [Value.getProp])
      (by simp [Value.getProp, Value.jsToString]))
